import Mathlib

/-!
Shallow embedding of the particle-release subsystem of GNOME2
(py_gnome/gnome/spill/release.py): the base `Release` scheduler and the
`SpatialRelease` weighting pipeline, with theorems checking the spec's claims.

Times are modelled as integer epoch seconds (the code works with `datetime`
values and integer-second timesteps); real-valued quantities are modelled
over `ℚ` (the code uses float64).
-/

namespace Gnome

/-- Python exception classes that the modelled code can raise, together with
the spec's abstract error-taxonomy names (which no code in the repository
ever raises). -/
inductive PyError where
  | typeError
  | valueError
  | assertionError
  | zeroDivisionError
  | configurationError
  | insufficientResourceError
  deriving DecidableEq, Repr

/-- The pair of parallel arrays held by a `TimeseriesData` object: sample
times and integer element counts (`astype(int)` is applied to the data in
`generate_release_timeseries`). -/
structure TimeseriesDataM where
  time : List ℤ
  data : List ℤ
  deriving DecidableEq, Repr

/-- numpy `linspace(a, b, n)` over `ℚ`: `n` evenly spaced samples from `a`
to `b` inclusive. -/
def linspace (a b : ℚ) (n : ℕ) : List ℚ :=
  if n = 0 then []
  else if n = 1 then [a]
  else (List.range n).map (fun (i : ℕ) => a + (b - a) * (i : ℚ) / ((n : ℚ) - 1))

/-- numpy `astype(int)` on a float value: truncation toward zero. -/
def pyInt (q : ℚ) : ℤ :=
  if q < 0 then ⌈q⌉ else ⌊q⌋

/-- Modelled from the spec: the interpolation walk of `TimeseriesData.at`
(`gnome.environment.timeseries_objects_base`, which is not under src/).
Given the previous sample `(t0, v0)` and the remaining samples, linearly
interpolate at query time `t`, extrapolating flat past the last sample. -/
def tsAtFrom : ℤ → ℤ → List (ℤ × ℤ) → ℚ → ℚ
  | _, v0, [], _ => (v0 : ℚ)
  | t0, v0, (t1, v1) :: rest, t =>
    if t ≤ (t1 : ℚ) then
      (v0 : ℚ) + ((v1 : ℚ) - (v0 : ℚ)) * (t - (t0 : ℚ)) / ((t1 : ℚ) - (t0 : ℚ))
    else tsAtFrom t1 v1 rest t

/-- Modelled from the spec: `TimeseriesData.at(..., extrapolate=True)`
(not under src/): piecewise-linear interpolation over ordered
(time, value) samples, flat extrapolation outside the sampled range. -/
def tsAt : List (ℤ × ℤ) → ℚ → ℚ
  | [], _ => 0
  | (t0, v0) :: rest, t =>
    if t ≤ (t0 : ℚ) then (v0 : ℚ) else tsAtFrom t0 v0 rest t

/-- Evaluate a `TimeseriesDataM` at a query time. -/
def TimeseriesDataM.ts_at (tsd : TimeseriesDataM) (t : ℚ) : ℚ :=
  tsAt (tsd.time.zip tsd.data) t

/-- The state of a base `Release` object.  Fields ending in `_` are the
underscored Python attributes behind the corresponding properties.
`_pos_ts` is omitted: for the base class nothing ever assigns it a value. -/
structure ReleaseState where
  releaseTime : ℤ
  endReleaseTime_ : Option ℤ
  numElements_ : Option ℤ
  numPerTimestep_ : Option ℤ
  releaseMass_ : ℚ
  customPositions : List (ℚ × ℚ × ℚ)
  prepared : Bool
  massPerLE : ℚ
  releaseTs : Option TimeseriesDataM
  deriving DecidableEq, Repr

namespace Release

/-- `Release.rewind`. -/
def rewind (s : ReleaseState) : ReleaseState :=
  { s with prepared := false, massPerLE := 0, releaseTs := none }

/-- The `release_mass` property setter: `None` or a negative value is
silently coerced to `0`. -/
def release_mass_set (val : Option ℚ) : ℚ :=
  match val with
  | none => 0
  | some v => if v < 0 then 0 else v

/-- The `num_elements` property setter. -/
def num_elements_set (s : ReleaseState) (val : Option ℤ) :
    Except PyError ReleaseState :=
  match val with
  | none =>
    let s1 := { s with numElements_ := none }
    if s1.numPerTimestep_ = none then
      .ok { s1 with numPerTimestep_ := some 1 }
    else
      .ok s1
  | some v =>
    if v < 0 then
      .error .valueError
    else
      .ok { s with numElements_ := some v, numPerTimestep_ := none }

/-- The `num_per_timestep` property setter.  The attribute is assigned
before the guard runs; the guard `val is not None or val < 0` evaluates
`None < 0` when `val` is `None`, which raises `TypeError` in Python 3. -/
def num_per_timestep_set (s : ReleaseState) (val : Option ℤ) :
    Except PyError ReleaseState :=
  let s1 := { s with numPerTimestep_ := val }
  match val with
  | some _ => .ok { s1 with numElements_ := none }
  | none => .error .typeError

/-- The `end_release_time` property setter: rejects a value earlier than
`release_time` with `ValueError`. -/
def end_release_time_set (s : ReleaseState) (val : Option ℤ) :
    Except PyError ReleaseState :=
  match val with
  | some v =>
    if s.releaseTime > v then .error .valueError
    else .ok { s with endReleaseTime_ := some v }
  | none => .ok { s with endReleaseTime_ := none }

/-- The `end_release_time` property getter: `None` reads as `release_time`. -/
def end_release_time (s : ReleaseState) : ℤ :=
  s.endReleaseTime_.getD s.releaseTime

/-- The `release_duration` property, in seconds. -/
def release_duration (s : ReleaseState) : ℤ :=
  match s.endReleaseTime_ with
  | none => 0
  | some _ => end_release_time s - s.releaseTime

/-- `Release.__init__`: the mutually-exclusive `num_elements` /
`num_per_timestep` handling, the property-setter assignments, and the
final `rewind`.  `release_time` is taken as required (the `datetime.now()`
default for a missing release time is outside this model). -/
def init (release_time : ℤ) (num_elements num_per_timestep : Option ℤ)
    (end_release_time : Option ℤ) (release_mass : Option ℚ)
    (custom_positions : List (ℚ × ℚ × ℚ)) : Except PyError ReleaseState :=
  let ne := if num_elements = none ∧ num_per_timestep = none
            then some 1000 else num_elements
  if ne ≠ none ∧ num_per_timestep ≠ none then
    .error .typeError
  else
    let s0 : ReleaseState :=
      { releaseTime := release_time
        endReleaseTime_ := none
        numElements_ := none
        numPerTimestep_ := num_per_timestep
        releaseMass_ := 0
        customPositions := custom_positions
        prepared := false
        massPerLE := 0
        releaseTs := none }
    match num_elements_set s0 ne with
    | .error e => .error e
    | .ok s1 =>
      match end_release_time_set s1 end_release_time with
      | .error e => .error e
      | .ok s2 =>
        .ok (rewind { s2 with releaseMass_ := release_mass_set release_mass })

/-- `Release.get_num_release_time_steps(ts)`: `ceil(duration / ts)`,
floored to 1. -/
def get_num_release_time_steps (s : ReleaseState) (ts : ℤ) : ℤ :=
  let rts : ℤ := ⌈(release_duration s : ℚ) / (ts : ℚ)⌉
  if rts = 0 then 1 else rts

/-- `Release.LE_timestep_ratio(ts)`.  After `init`, at least one of the two
count fields is set, so the `getD 0` defaults are never reached on a state
produced by `init`. -/
def LE_timestep_ratio (s : ReleaseState) (ts : ℤ) : ℚ :=
  if s.numElements_ = none ∧ s.numPerTimestep_ ≠ none then
    ((s.numPerTimestep_.getD 0 : ℤ) : ℚ)
  else
    (s.numElements_.getD 0 : ℚ) / (get_num_release_time_steps s ts : ℚ)

/-- `Release.generate_release_timeseries(num_ts, max_release, ts)`:
builds the sample times (clamping the last sample to `end_release_time` in
the multi-step case) and the cumulative count data
(`np.full(..., max_release)` for an instantaneous release, else
`np.linspace(0, max_release, num_ts + 1).astype(int)`). -/
def generate_release_timeseries (s : ReleaseState)
    (num_ts max_release ts : ℤ) : TimeseriesDataM :=
  let t : List ℤ :=
    if num_ts = 1 then
      if release_duration s = 0 then
        [s.releaseTime, end_release_time s + 1]
      else
        [s.releaseTime, end_release_time s]
    else
      (((List.range (num_ts.toNat + 1)).map
          (fun (step : ℕ) => s.releaseTime + ts * (step : ℤ))).dropLast)
        ++ [end_release_time s]
  let data : List ℤ :=
    if release_duration s = 0 then
      List.replicate t.length max_release
    else
      (linspace 0 (max_release : ℚ) (num_ts.toNat + 1)).map pyInt
  ⟨t, data⟩

/-- `Release.num_elements_after_time(current_time, time_step)`. -/
def num_elements_after_time (s : ReleaseState)
    (current_time time_step : ℤ) : ℤ :=
  if !s.prepared then 0
  else if current_time < s.releaseTime then 0
  else
    ⌈(s.releaseTs.getD ⟨[], []⟩).ts_at ((current_time : ℚ) + (time_step : ℚ))⌉

/-- The body of `Release.prepare_for_model_run(ts)` after the implicit
rewind: the LE/timestep ratio check (raising `ValueError`), then the
timeseries and per-element mass computation.  The base class sets the
prepared flag (`self.__class__ is Release`). -/
def prepare_core (s : ReleaseState) (ts : ℤ) : Except PyError ReleaseState :=
  if LE_timestep_ratio s ts < 1 then
    .error .valueError
  else
    let num_ts := get_num_release_time_steps s ts
    let max_release : ℤ :=
      match s.numPerTimestep_ with
      | some npt => npt * num_ts
      | none => s.numElements_.getD 0
    .ok { s with
          releaseTs := some (generate_release_timeseries s num_ts max_release ts)
          massPerLE := s.releaseMass_ / (max_release : ℚ)
          prepared := true }

/-- `Release.prepare_for_model_run(ts)`: an already-prepared instance is
implicitly rewound, then the body runs. -/
def prepare_for_model_run (s : ReleaseState) (ts : ℤ) :
    Except PyError ReleaseState :=
  prepare_core (if s.prepared then rewind s else s) ts

/-- `Release.initialize_LEs(to_rel, data, ...)`: the position rows written
into the last `to_rel` slots and the per-element mass.  `rand` supplies the
indices drawn by `np.random.randint(0, num_locs, rem)`.  Returns the stacked
position rows, or the error the code raises (`ValueError` with no configured
positions, `AssertionError` when `len(pos) == to_rel` fails). -/
def initialize_LEs (s : ReleaseState) (to_rel : ℕ) (rand : ℕ → ℕ) :
    Except PyError (List (ℚ × ℚ × ℚ) × ℚ) :=
  if s.customPositions.length = 0 then
    .error .valueError
  else
    let num_locs := s.customPositions.length
    let qt := num_locs / to_rel
    let rem := num_locs % to_rel
    let qt_pos := (List.replicate qt s.customPositions).flatten
    let rem_pos := (List.range rem).map
      (fun i => s.customPositions.getD (rand i) (0, 0, 0))
    let pos := qt_pos ++ rem_pos
    if pos.length = to_rel then
      .ok (pos, s.massPerLE)
    else
      .error .assertionError

end Release

/-- Modelled from the spec: a polygon is represented abstractly by the areas
of the triangles `geo_routines.triangulate_poly` decomposes it into
(`gnome.utilities.geometry.geo_routines` is not under src/); its geodesic
area (`geo_routines.geo_area_of_polygon`) is the sum of its triangles'
areas.  `ℚ` has no NaN, so the degenerate-geometry NaN-area path is outside
this model. -/
structure ModelPolygon where
  triAreas : List ℚ
  deriving DecidableEq, Repr

/-- The geodesic area of a modelled polygon. -/
def ModelPolygon.area (p : ModelPolygon) : ℚ :=
  p.triAreas.sum

/-- One feature of a `SpatialRelease` feature collection: a polygon with its
optional `weight` and `thickness` properties. -/
structure SpatialFeature where
  poly : ModelPolygon
  weight : Option ℚ
  thickness : Option ℚ
  deriving DecidableEq, Repr

namespace SpatialRelease

/-- The `thicknesses` property: `None` when no feature carries a thickness,
else the per-feature list (entries may individually be `None`). -/
def thicknesses (fs : List SpatialFeature) : Option (List (Option ℚ)) :=
  if (fs.map (fun f => f.thickness)).all (fun r => r = none) then none
  else some (fs.map (fun f => f.thickness))

/-- The `weights` property: `None` when no feature carries a weight, else
the per-feature list (entries may individually be `None`). -/
def weights (fs : List SpatialFeature) : Option (List (Option ℚ)) :=
  if (fs.map (fun f => f.weight)).all (fun r => r = none) then none
  else some (fs.map (fun f => f.weight))

/-- Modelled from the spec: `geo_routines.poly_area_weight` (not under
src/) — each triangle's weight is its area divided by the total area of
the given triangles. -/
def poly_area_weight (tris : List ℚ) : List ℚ :=
  tris.map (fun a => a / tris.sum)

/-- `SpatialRelease.compute_distribution`: polygon probability weights by
volume (`area × thickness`, normalized).  In the source, absent
thicknesses raise `TypeError` at `zip`/`a * t`; that is surfaced here as
the same error at entry. -/
def compute_distribution (fs : List SpatialFeature) : Except PyError (List ℚ) :=
  match thicknesses fs with
  | none => .error .typeError
  | some ths =>
    if ths.any (fun t => t = none) then .error .typeError
    else
      let areas := fs.map (fun f => f.poly.area)
      let volumes := (areas.zip (ths.map (fun t => t.getD 0))).map
        (fun v => v.1 * v.2)
      let total_vol := volumes.sum
      if total_vol = 0 then .error .zeroDivisionError
      else .ok (volumes.map (fun v => v / total_vol))

/-- `SpatialRelease.get_polys_as_tris(polys, weights)`: decompose every
polygon into triangles and attach normalized weights — explicit per-polygon
weights scaled by per-triangle area proportion when given, else pure
area proportion over all triangles.  The trailing
`assert np.isclose(sum(_weights), 1.0)` is modelled as an exact check
over `ℚ`. -/
def get_polys_as_tris (polys : List ModelPolygon) (ws : Option (List ℚ)) :
    Except PyError (List ℚ × List ℚ) :=
  match ws with
  | some ws =>
    if ws.length ≠ polys.length then
      .error .valueError
    else
      let tris := (polys.map (fun p => p.triAreas)).flatten
      let tw := ((polys.zip ws).map
        (fun pw => (poly_area_weight pw.1.triAreas).map
          (fun tri_weight => pw.2 * tri_weight))).flatten
      if tw.sum = 1 then .ok (tris, tw) else .error .assertionError
  | none =>
    let tris := (polys.map (fun p => p.triAreas)).flatten
    let tw := poly_area_weight tris
    if tw.sum = 1 then .ok (tris, tw) else .error .assertionError

/-- The weight-resolution step of `SpatialRelease.prepare_for_model_run`:
thickness-derived distribution when any thickness is present, else the
explicit `weights` property.  A partially-weighted feature set raises
`TypeError` in the source at the `w * tri_weight` multiplication; it is
surfaced here at resolution. -/
def resolve_weights (fs : List SpatialFeature) :
    Except PyError (Option (List ℚ)) :=
  match thicknesses fs with
  | some _ => (compute_distribution fs).map some
  | none =>
    match weights fs with
    | none => .ok none
    | some ws =>
      if ws.any (fun w => w = none) then .error .typeError
      else .ok (some (ws.map (fun w => w.getD 0)))

/-- `SpatialRelease.prepare_for_model_run(ts)`: the base preparation, then
weight resolution and triangulation.  `geo_routines.check_valid_polygon`
(simple polygon, longitude/latitude range) is geometric validity outside
this abstraction.  Returns the prepared state with the triangle areas and
triangle weights (`_tris`, `_weights`). -/
def prepare_for_model_run (s : ReleaseState) (fs : List SpatialFeature)
    (ts : ℤ) : Except PyError (ReleaseState × List ℚ × List ℚ) :=
  match Release.prepare_for_model_run s ts with
  | .error e => .error e
  | .ok s1 =>
    match resolve_weights fs with
    | .error e => .error e
    | .ok ws =>
      match get_polys_as_tris (fs.map (fun f => f.poly)) ws with
      | .error e => .error e
      | .ok tw => .ok ({ s1 with prepared := true }, tw)

/-- The `volumes` local of `SpatialRelease.compute_distribution`, for a
feature list whose thicknesses are `ths`: per-polygon `area × thickness`. -/
def volumesOf (fs : List SpatialFeature) (ths : List ℚ) : List ℚ :=
  ((fs.map (fun f => f.poly.area)).zip ths).map (fun v => v.1 * v.2)

/-- Extract the triangle-weight list from a `prepare_for_model_run` result
(the `_weights` attribute); empty on error. -/
def triWeightsOf (r : Except PyError (ReleaseState × List ℚ × List ℚ)) :
    List ℚ :=
  match r with
  | .ok x => x.2.2
  | .error _ => []

/-- The spec's validity conditions on a feature collection's weighting
data: thicknesses, when present, are positive; explicit weights, when
present, are all given and sum to 1 (the spec's PolygonSet invariant);
the default area-proportional mode needs nothing extra. -/
def ValidWeighting (fs : List SpatialFeature) : Prop :=
  (∀ ths, thicknesses fs = some ths → ∀ t ∈ ths, ∃ q, t = some q ∧ 0 < q) ∧
  (∀ ws, weights fs = some ws → ∃ vs : List ℚ, ws = vs.map some ∧ vs.sum = 1)

end SpatialRelease

/-! ## Helper lemmas -/

namespace Release

theorem linspace_length (a b : ℚ) (n : ℕ) : (linspace a b n).length = n := by
  rw [linspace]
  split
  · simp [*]
  · split
    · simp [*]
    · rw [List.length_map, List.length_range]

theorem linspace_getD (a b : ℚ) (n : ℕ) (hn : 2 ≤ n) (i : ℕ) (hi : i < n) :
    (linspace a b n).getD i 0 = a + (b - a) * (i : ℚ) / ((n : ℚ) - 1) := by
  rw [linspace, if_neg (by omega), if_neg (by omega)]
  rw [List.getD_eq_getElem _ _ (by simpa using hi)]
  simp

theorem pyInt_intCast (m : ℤ) : pyInt (m : ℚ) = m := by
  rw [pyInt]
  split <;> simp

/-- The final state produced by a successful `Release.init` carries the
value the `release_mass` setter produced. -/
theorem init_releaseMass (rt : ℤ) (ne npt : Option ℤ) (ert : Option ℤ)
    (rm : Option ℚ) (cp : List (ℚ × ℚ × ℚ)) (s : ReleaseState)
    (h : Release.init rt ne npt ert rm cp = .ok s) :
    s.releaseMass_ = release_mass_set rm := by
  unfold Release.init at h
  simp only [ne_eq] at h
  iterate 5 (all_goals try split at h)
  all_goals try cases h
  all_goals rfl

/-- `prepare_core` reads only the configuration fields, never the derived
state. -/
theorem prepare_core_congr (rt : ℤ) (ert : Option ℤ) (ne npt : Option ℤ)
    (rm : ℚ) (cp : List (ℚ × ℚ × ℚ)) (p p' : Bool) (m m' : ℚ)
    (rts rts' : Option TimeseriesDataM) (ts : ℤ) :
    prepare_core ⟨rt, ert, ne, npt, rm, cp, p, m, rts⟩ ts
      = prepare_core ⟨rt, ert, ne, npt, rm, cp, p', m', rts'⟩ ts := rfl

/-- The LE/timestep ratio is unchanged by `rewind`. -/
theorem LE_timestep_ratio_rewind (s : ReleaseState) (ts : ℤ) :
    LE_timestep_ratio (rewind s) ts = LE_timestep_ratio s ts := rfl

/-- `prepare_for_model_run` either rejects the ratio with `ValueError` or
succeeds, and the test is the ratio computed on the configuration. -/
theorem prepare_cases (s : ReleaseState) (ts : ℤ) :
    (LE_timestep_ratio s ts < 1 →
      prepare_for_model_run s ts = .error .valueError) ∧
    (¬ LE_timestep_ratio s ts < 1 →
      (prepare_for_model_run s ts).isOk = true) := by
  have hu : LE_timestep_ratio (if s.prepared then rewind s else s) ts
      = LE_timestep_ratio s ts := by
    split
    · exact LE_timestep_ratio_rewind s ts
    · rfl
  constructor
  · intro h
    rw [prepare_for_model_run, prepare_core, if_pos (by rw [hu]; exact h)]
  · intro h
    rw [prepare_for_model_run, prepare_core, if_neg (by rw [hu]; exact h)]
    rfl

/-- `Release.init` for the C1 scenario configuration. -/
theorem c1_init (T : ℤ) :
    Release.init T (some 10) none (some (T + 3600)) (some 0) []
      = .ok ⟨T, some (T + 3600), some 10, none, 0, [], false, 0, none⟩ := by
  unfold Release.init num_elements_set end_release_time_set release_mass_set rewind
  simp [show ¬ (T + 3600 < T) from by omega]

theorem c1_duration (T : ℤ) :
    release_duration ⟨T, some (T + 3600), some 10, none, 0, [], false, 0, none⟩
      = 3600 := by
  simp [release_duration, end_release_time]

theorem c1_steps (T : ℤ) :
    get_num_release_time_steps
        ⟨T, some (T + 3600), some 10, none, 0, [], false, 0, none⟩ 1800 = 2 := by
  rw [get_num_release_time_steps, c1_duration]
  norm_num

theorem c1_ratio (T : ℤ) :
    LE_timestep_ratio
        ⟨T, some (T + 3600), some 10, none, 0, [], false, 0, none⟩ 1800 = 5 := by
  rw [LE_timestep_ratio]
  simp [c1_steps]
  norm_num

theorem c1_gen (T : ℤ) :
    generate_release_timeseries
        ⟨T, some (T + 3600), some 10, none, 0, [], false, 0, none⟩ 2 10 1800
      = ⟨[T, T + 1800, T + 3600], [0, 5, 10]⟩ := by
  rw [generate_release_timeseries]
  simp [c1_duration, end_release_time, List.range_succ, linspace, pyInt]
  norm_num

theorem c1_prepare (T : ℤ) :
    prepare_for_model_run
        ⟨T, some (T + 3600), some 10, none, 0, [], false, 0, none⟩ 1800
      = .ok ⟨T, some (T + 3600), some 10, none, 0, [], true, 0,
             some ⟨[T, T + 1800, T + 3600], [0, 5, 10]⟩⟩ := by
  rw [prepare_for_model_run]
  simp only [Bool.false_eq_true, if_false]
  rw [prepare_core, if_neg (by rw [c1_ratio]; norm_num)]
  simp [c1_steps, c1_gen]

theorem c1_after0 (T : ℤ) :
    num_elements_after_time ⟨T, some (T + 3600), some 10, none, 0, [], true, 0,
        some ⟨[T, T + 1800, T + 3600], [0, 5, 10]⟩⟩ T 0 = 0 := by
  rw [num_elements_after_time]
  simp [TimeseriesDataM.ts_at, tsAt]

theorem c1_after1800 (T : ℤ) :
    num_elements_after_time ⟨T, some (T + 3600), some 10, none, 0, [], true, 0,
        some ⟨[T, T + 1800, T + 3600], [0, 5, 10]⟩⟩ T 1800 = 5 := by
  rw [num_elements_after_time]
  simp [TimeseriesDataM.ts_at, tsAt, tsAtFrom]
  norm_num

theorem c1_after3600 (T : ℤ) :
    num_elements_after_time ⟨T, some (T + 3600), some 10, none, 0, [], true, 0,
        some ⟨[T, T + 1800, T + 3600], [0, 5, 10]⟩⟩ T 3600 = 10 := by
  rw [num_elements_after_time]
  simp [TimeseriesDataM.ts_at, tsAt, tsAtFrom]
  norm_num

theorem c6_steps_low :
    get_num_release_time_steps
        ⟨0, some 3600, some 1, none, 0, [], false, 0, none⟩ 1800 = 2 := by
  rw [get_num_release_time_steps]
  norm_num [release_duration, end_release_time]

theorem c6_steps_ten :
    get_num_release_time_steps
        ⟨0, some 3600, some 10, none, 0, [], false, 0, none⟩ 1800 = 2 := by
  rw [get_num_release_time_steps]
  norm_num [release_duration, end_release_time]

theorem c6_ratio_half :
    LE_timestep_ratio
        ⟨0, some 3600, some 1, none, 0, [], false, 0, none⟩ 1800 < 1 := by
  rw [LE_timestep_ratio]
  simp [c6_steps_low]
  norm_num

theorem c6_ratio_ten :
    1 ≤ LE_timestep_ratio
        ⟨0, some 3600, some 10, none, 0, [], false, 0, none⟩ 1800 := by
  rw [LE_timestep_ratio]
  simp [c6_steps_ten]
  norm_num

/-- When the release duration is zero the end time reads back as the
release time. -/
theorem end_eq_of_duration_zero (s : ReleaseState)
    (h : release_duration s = 0) : end_release_time s = s.releaseTime := by
  rw [release_duration] at h
  rw [end_release_time]
  cases he : s.endReleaseTime_ with
  | none => rfl
  | some v =>
    rw [he] at h
    rw [end_release_time] at h
    rw [he] at h
    simp at h ⊢
    omega

/-- Instantaneous release: the generated timeseries is two samples, one
second apart, both at `max_release`. -/
theorem c4_instantaneous (s : ReleaseState) (max_release ts : ℤ)
    (hdur : release_duration s = 0) :
    generate_release_timeseries s 1 max_release ts
      = ⟨[s.releaseTime, s.releaseTime + 1], [max_release, max_release]⟩ := by
  rw [generate_release_timeseries]
  simp [hdur, end_eq_of_duration_zero s hdur]

theorem c4_data_length (s : ReleaseState) (num_ts max_release ts : ℤ)
    (hdur : release_duration s ≠ 0) :
    (generate_release_timeseries s num_ts max_release ts).data.length
      = num_ts.toNat + 1 := by
  rw [generate_release_timeseries]
  dsimp only
  rw [if_neg hdur, List.length_map, linspace_length]

/-- Non-instantaneous release: sample `i` of the generated count data is
the integer truncation of `max_release * i / num_ts`. -/
theorem c4_data_getD (s : ReleaseState) (num_ts max_release ts : ℤ)
    (hdur : release_duration s ≠ 0) (hn : 1 ≤ num_ts) (i : ℕ)
    (hi : i < num_ts.toNat + 1) :
    (generate_release_timeseries s num_ts max_release ts).data.getD i 0
      = pyInt ((max_release : ℚ) * (i : ℚ) / (num_ts : ℚ)) := by
  rw [generate_release_timeseries]
  dsimp only
  rw [if_neg hdur]
  have hl : ((linspace 0 (max_release : ℚ) (num_ts.toNat + 1)).map pyInt).length
      = num_ts.toNat + 1 := by
    rw [List.length_map, linspace_length]
  rw [List.getD_eq_getElem _ _ (by rw [hl]; exact hi)]
  rw [List.getElem_map]
  congr 1
  have hget := linspace_getD 0 (max_release : ℚ) (num_ts.toNat + 1) (by omega) i hi
  rw [List.getD_eq_getElem _ _ (by rw [linspace_length]; exact hi)] at hget
  rw [hget]
  have htn : ((num_ts.toNat : ℕ) : ℚ) = (num_ts : ℚ) := by
    have h0 : ((num_ts.toNat : ℕ) : ℤ) = num_ts := Int.toNat_of_nonneg (by omega)
    exact_mod_cast congrArg (fun z : ℤ => (z : ℚ)) h0
  push_cast
  rw [htn]
  ring

end Release

namespace SpatialRelease

theorem sum_map_div (l : List ℚ) (c : ℚ) :
    (l.map (fun x => x / c)).sum = l.sum / c := by
  induction l with
  | nil => simp
  | cons a l ih => simp [ih, add_div]

theorem sum_map_mul (c : ℚ) (l : List ℚ) :
    (l.map (fun x => c * x)).sum = c * l.sum := by
  induction l with
  | nil => simp
  | cons a l ih => simp [ih, mul_add]

theorem getD_map_div (l : List ℚ) (c : ℚ) (i : ℕ) :
    (l.map (fun v => v / c)).getD i 0 = l.getD i 0 / c := by
  induction l generalizing i with
  | nil => simp
  | cons a l ih =>
    cases i with
    | zero => simp
    | succ k =>
      simp only [List.map_cons, List.getD_cons_succ]
      exact ih k

/-- `poly_area_weight` produces weights summing to 1 whenever the total
area is nonzero. -/
theorem poly_area_weight_sum (tris : List ℚ) (h : tris.sum ≠ 0) :
    (poly_area_weight tris).sum = 1 := by
  rw [poly_area_weight, sum_map_div, div_self h]

theorem thicknesses_some_inv (fs : List SpatialFeature)
    (ths0 : List (Option ℚ)) (h : thicknesses fs = some ths0) :
    fs.map (fun f => f.thickness) = ths0 := by
  rw [thicknesses] at h
  split at h
  · cases h
  · exact Option.some.inj h

theorem weights_some_inv (fs : List SpatialFeature)
    (ws0 : List (Option ℚ)) (h : weights fs = some ws0) :
    fs.map (fun f => f.weight) = ws0 := by
  rw [weights] at h
  split at h
  · cases h
  · exact Option.some.inj h

theorem all_some_decompose (l : List (Option ℚ))
    (h : ∀ t ∈ l, ∃ q, t = some q) :
    l = (l.map (fun o => o.getD 0)).map some := by
  induction l with
  | nil => rfl
  | cons a l ih =>
    obtain ⟨q, hq⟩ := h a (List.mem_cons_self a l)
    rw [List.map_cons, List.map_cons,
        ← ih (fun t ht => h t (List.mem_cons_of_mem a ht)), hq]
    rfl

theorem getD_some_map (l : List ℚ) :
    (l.map some).map (fun o => o.getD 0) = l := by
  rw [List.map_map]
  exact List.map_id l

/-- With all-`some` thicknesses and a nonzero total volume,
`compute_distribution` returns the normalized volume list. -/
theorem compute_distribution_eval (fs : List SpatialFeature) (ths : List ℚ)
    (hth : fs.map (fun f => f.thickness) = ths.map some)
    (hne : fs ≠ [])
    (htot : (volumesOf fs ths).sum ≠ 0) :
    compute_distribution fs
      = .ok ((volumesOf fs ths).map
          (fun v => v / (volumesOf fs ths).sum)) := by
  have hlen : fs.length = ths.length := by
    have := congrArg List.length hth
    simpa using this
  have hths_ne : ths ≠ [] := by
    intro h
    subst h
    simp at hlen
    exact hne hlen
  have hthick : thicknesses fs = some (ths.map some) := by
    rw [thicknesses]
    simp only [hth]
    rw [if_neg]
    intro hall
    rw [List.all_eq_true] at hall
    obtain ⟨t, ht⟩ := List.exists_mem_of_ne_nil ths hths_ne
    have := hall (some t) (List.mem_map_of_mem some ht)
    simp at this
  rw [compute_distribution, hthick]
  dsimp only
  rw [if_neg (by
    rw [List.any_eq_true]
    rintro ⟨o, ho, hco⟩
    rw [List.mem_map] at ho
    obtain ⟨t, _, rfl⟩ := ho
    simp at hco)]
  rw [getD_some_map]
  rw [volumesOf] at htot
  rw [volumesOf]
  rw [if_neg htot]

/-- Explicit per-polygon weights scaled over each polygon's triangles:
the flattened triangle weights sum to the sum of the polygon weights. -/
theorem tw_sum_scaled (polys : List ModelPolygon) (ws : List ℚ)
    (hlen : ws.length = polys.length)
    (ha : ∀ p ∈ polys, p.area ≠ 0) :
    (((polys.zip ws).map
      (fun pw => (poly_area_weight pw.1.triAreas).map
        (fun tri_weight => pw.2 * tri_weight))).flatten).sum = ws.sum := by
  induction polys generalizing ws with
  | nil =>
    cases ws with
    | nil => simp
    | cons w ws2 => simp at hlen
  | cons p ps ih =>
    cases ws with
    | nil => simp at hlen
    | cons w ws2 =>
      rw [List.zip_cons_cons, List.map_cons, List.flatten_cons,
          List.sum_append, List.sum_cons]
      rw [sum_map_mul, poly_area_weight_sum _ (ha p (List.mem_cons_self p ps)),
          mul_one]
      rw [ih ws2 (by simpa using hlen)
          (fun q hq => ha q (List.mem_cons_of_mem p hq))]

theorem get_polys_as_tris_explicit (polys : List ModelPolygon) (ws : List ℚ)
    (hlen : ws.length = polys.length)
    (ha : ∀ p ∈ polys, p.area ≠ 0)
    (hsum : ws.sum = 1) :
    ∃ tris tw, get_polys_as_tris polys (some ws) = .ok (tris, tw) ∧
      tw.sum = 1 := by
  have htw : (((polys.zip ws).map
      (fun pw => (poly_area_weight pw.1.triAreas).map
        (fun tri_weight => pw.2 * tri_weight))).flatten).sum = 1 := by
    rw [tw_sum_scaled polys ws hlen ha, hsum]
  refine ⟨(polys.map (fun p => p.triAreas)).flatten, _, ?_, htw⟩
  rw [get_polys_as_tris]
  rw [if_neg (by omega)]
  rw [if_pos htw]

theorem flatten_tris_sum (polys : List ModelPolygon) :
    ((polys.map (fun p => p.triAreas)).flatten).sum
      = (polys.map ModelPolygon.area).sum := by
  rw [List.sum_flatten, List.map_map]
  rfl

theorem get_polys_as_tris_default (polys : List ModelPolygon)
    (htot : ((polys.map (fun p => p.triAreas)).flatten).sum ≠ 0) :
    ∃ tris tw, get_polys_as_tris polys none = .ok (tris, tw) ∧
      tw.sum = 1 := by
  have htw := poly_area_weight_sum _ htot
  refine ⟨(polys.map (fun p => p.triAreas)).flatten, _, ?_, htw⟩
  rw [get_polys_as_tris]
  rw [if_pos htw]

end SpatialRelease

/-! ## Claim theorems -/

open Release

/-- C1: for a Release constructed with `release_time = T`,
`num_elements = 10`, `end_release_time = T + 3600` and timestep 1800:
`get_num_release_time_steps` returns 2, `LE_timestep_ratio` returns 5.0,
and after `prepare_for_model_run(1800)`, `num_elements_after_time` at
offsets 0, 1800 and 3600 seconds from `T` returns 0, 5 and 10. -/
theorem claim1_scenario_two_step_release (T : ℤ) :
    Release.init T (some 10) none (some (T + 3600)) (some 0) []
      = .ok ⟨T, some (T + 3600), some 10, none, 0, [], false, 0, none⟩ ∧
    get_num_release_time_steps
      ⟨T, some (T + 3600), some 10, none, 0, [], false, 0, none⟩ 1800 = 2 ∧
    LE_timestep_ratio
      ⟨T, some (T + 3600), some 10, none, 0, [], false, 0, none⟩ 1800 = 5 ∧
    prepare_for_model_run
      ⟨T, some (T + 3600), some 10, none, 0, [], false, 0, none⟩ 1800
      = .ok ⟨T, some (T + 3600), some 10, none, 0, [], true, 0,
             some ⟨[T, T + 1800, T + 3600], [0, 5, 10]⟩⟩ ∧
    num_elements_after_time ⟨T, some (T + 3600), some 10, none, 0, [], true, 0,
      some ⟨[T, T + 1800, T + 3600], [0, 5, 10]⟩⟩ T 0 = 0 ∧
    num_elements_after_time ⟨T, some (T + 3600), some 10, none, 0, [], true, 0,
      some ⟨[T, T + 1800, T + 3600], [0, 5, 10]⟩⟩ T 1800 = 5 ∧
    num_elements_after_time ⟨T, some (T + 3600), some 10, none, 0, [], true, 0,
      some ⟨[T, T + 1800, T + 3600], [0, 5, 10]⟩⟩ T 3600 = 10 :=
  ⟨c1_init T, c1_steps T, c1_ratio T, c1_prepare T,
   c1_after0 T, c1_after1800 T, c1_after3600 T⟩

/-- C8: `prepare_for_model_run(ts)` is idempotent — running it again on
the state it produced yields the same state (an already-prepared instance
is implicitly rewound, and the body depends only on the configuration). -/
theorem claim8_prepare_idempotent (s : ReleaseState) (ts : ℤ) :
    (Release.prepare_for_model_run s ts).bind
        (fun s1 => Release.prepare_for_model_run s1 ts)
      = Release.prepare_for_model_run s ts := by
  obtain ⟨rt, ert, ne, npt, rm, cp, p, m, rts⟩ := s
  have key : ∀ (p' : Bool) (m' : ℚ) (rts' : Option TimeseriesDataM),
      prepare_for_model_run ⟨rt, ert, ne, npt, rm, cp, p', m', rts'⟩ ts
        = prepare_core ⟨rt, ert, ne, npt, rm, cp, false, 0, none⟩ ts := by
    intro p' m' rts'
    cases p'
    · exact prepare_core_congr rt ert ne npt rm cp false false m' 0 rts' none ts
    · rfl
  rw [key p m rts]
  by_cases hr : LE_timestep_ratio ⟨rt, ert, ne, npt, rm, cp, false, 0, none⟩ ts < 1
  · rw [prepare_core, if_pos hr]
    rfl
  · rw [prepare_core, if_neg hr]
    show prepare_for_model_run _ ts = _
    rw [key true _ _]
    rw [prepare_core, if_neg hr]

/-- C9: `release_mass` is always non-negative — the setter coerces `None`
and negative values to 0, and any state built by `Release.init` therefore
reads a non-negative `release_mass`. -/
theorem claim9_release_mass_nonneg :
    (∀ val : Option ℚ, 0 ≤ release_mass_set val) ∧
    release_mass_set none = 0 ∧
    (∀ v : ℚ, v < 0 → release_mass_set (some v) = 0) ∧
    (∀ (rt : ℤ) (ne npt ert : Option ℤ) (rm : Option ℚ)
        (cp : List (ℚ × ℚ × ℚ)) (s : ReleaseState),
      Release.init rt ne npt ert rm cp = .ok s → 0 ≤ s.releaseMass_) := by
  have hpos : ∀ val : Option ℚ, 0 ≤ release_mass_set val := by
    intro val
    rw [release_mass_set.eq_def]
    cases val with
    | none => exact le_refl 0
    | some v =>
      simp only
      split
      · exact le_refl 0
      · exact le_of_not_lt (by assumption)
  refine ⟨hpos, rfl, ?_, ?_⟩
  · intro v hv
    show (if v < 0 then (0 : ℚ) else v) = 0
    rw [if_pos hv]
  · intro rt ne npt ert rm cp s h
    rw [init_releaseMass rt ne npt ert rm cp s h]
    exact hpos rm

/-- C9 witness: a negative assignment is coerced to 0 and a positive one
stays non-negative. -/
theorem claim9_witness :
    release_mass_set (some (-3)) = 0 ∧ 0 ≤ release_mass_set (some 7) :=
  ⟨claim9_release_mass_nonneg.2.2.1 (-3) (by norm_num),
   claim9_release_mass_nonneg.1 (some 7)⟩

/-- C10: assigning `None` through the `num_per_timestep` setter raises
`TypeError` (the guard evaluates `None < 0`), so the setter never
completes for `None`. -/
theorem claim10_num_per_timestep_none_type_error (s : ReleaseState) :
    num_per_timestep_set s none = .error .typeError := rfl

/-- C3 counterexample: constructing with both `num_elements` and
`num_per_timestep` raises `TypeError`, not the spec's
`ConfigurationError`. -/
theorem claim3_counterexample_type_error :
    Release.init 0 (some 10) (some 5) none (some 0) [] = .error .typeError ∧
    ¬ Release.init 0 (some 10) (some 5) none (some 0) []
        = .error .configurationError := by
  have h : Release.init 0 (some 10) (some 5) none (some 0) []
      = .error .typeError := rfl
  refine ⟨h, fun hc => ?_⟩
  rw [h] at hc
  exact absurd (Except.error.inj hc) (by decide)

/-- C3 amended: constructing with both `num_elements` and
`num_per_timestep` set raises `TypeError` (the error the spec's
ConfigurationError category corresponds to); with both absent,
construction succeeds and `num_elements` defaults to 1000. -/
theorem claim3_amended_both_raise_and_default :
    (∀ (rt a b : ℤ) (ert : Option ℤ) (rm : Option ℚ)
        (cp : List (ℚ × ℚ × ℚ)),
      Release.init rt (some a) (some b) ert rm cp = .error .typeError) ∧
    (∀ (rt : ℤ) (rm : Option ℚ) (cp : List (ℚ × ℚ × ℚ)),
      ∃ s, Release.init rt none none none rm cp = .ok s ∧
        s.numElements_ = some 1000) := by
  constructor
  · intro rt a b ert rm cp
    simp [Release.init]
  · intro rt rm cp
    exact ⟨⟨rt, none, some 1000, none, release_mass_set rm, cp, false, 0, none⟩,
      by simp [Release.init, num_elements_set, end_release_time_set, rewind],
      rfl⟩

/-- C6 counterexample: a Release whose LE/timestep ratio is below 1
(1 element over 2 release steps) fails `prepare_for_model_run` with
`ValueError`, not the spec's `InsufficientResourceError`. -/
theorem claim6_counterexample_value_error :
    Release.prepare_for_model_run
        ⟨0, some 3600, some 1, none, 0, [], false, 0, none⟩ 1800
      = .error .valueError ∧
    ¬ Release.prepare_for_model_run
        ⟨0, some 3600, some 1, none, 0, [], false, 0, none⟩ 1800
      = .error .insufficientResourceError := by
  have h : Release.prepare_for_model_run
      ⟨0, some 3600, some 1, none, 0, [], false, 0, none⟩ 1800
      = .error .valueError :=
    (prepare_cases _ 1800).1 c6_ratio_half
  refine ⟨h, fun hc => ?_⟩
  rw [h] at hc
  exact absurd (Except.error.inj hc) (by decide)

/-- C6 amended: for every Release, `prepare_for_model_run(ts)` fails with
`ValueError` (the error backing the spec's InsufficientResourceError
category) exactly when `LE_timestep_ratio(ts) < 1`; when the ratio is at
least 1 the call succeeds. -/
theorem claim6_amended_ratio_check (s : ReleaseState) (ts : ℤ) :
    (LE_timestep_ratio s ts < 1 →
      Release.prepare_for_model_run s ts = .error .valueError) ∧
    (1 ≤ LE_timestep_ratio s ts →
      (Release.prepare_for_model_run s ts).isOk = true) :=
  ⟨(prepare_cases s ts).1, fun h => (prepare_cases s ts).2 (not_lt.mpr h)⟩

/-- C6 witness: the amended theorem applied to a ratio-1/2 configuration
and to a ratio-5 configuration. -/
theorem claim6_witness :
    Release.prepare_for_model_run
        ⟨0, some 3600, some 1, none, 0, [], false, 0, none⟩ 1800
      = .error .valueError ∧
    (Release.prepare_for_model_run
        ⟨0, some 3600, some 10, none, 0, [], false, 0, none⟩ 1800).isOk
      = true :=
  ⟨(claim6_amended_ratio_check
      ⟨0, some 3600, some 1, none, 0, [], false, 0, none⟩ 1800).1 c6_ratio_half,
   (claim6_amended_ratio_check
      ⟨0, some 3600, some 10, none, 0, [], false, 0, none⟩ 1800).2 c6_ratio_ten⟩

/-- C2 (code bug): with 3 custom positions and 5 elements to release,
`initialize_LEs` fails its own `assert len(pos) == to_rel` with
`AssertionError` instead of writing 5 tiled rows — the code computes
`qt = num_locs // to_rel` and `rem = num_locs % to_rel` with the operands
of the claimed (and commented) round-robin computation swapped. -/
theorem claim2_initialize_LEs_assert_fails :
    Release.initialize_LEs
        ⟨0, none, some 10, none, 0, [(0, 0, 0), (1, 1, 0), (2, 2, 0)],
         true, 1, none⟩ 5 (fun _ => 0)
      = .error .assertionError := rfl


/-- C4 counterexample: a release spanning a single timestep
(`get_num_release_time_steps = 1`) but with positive duration (900 s,
timestep 1800 s) generates the samples `[0, 10]`, not two samples both
equal to `max_release = 10` — the both-equal shape is gated on zero
duration, not on the single-step condition the claim states. -/
theorem claim4_counterexample_single_step_not_full :
    get_num_release_time_steps
        ⟨0, some 900, some 10, none, 0, [], false, 0, none⟩ 1800 = 1 ∧
    generate_release_timeseries
        ⟨0, some 900, some 10, none, 0, [], false, 0, none⟩ 1 10 1800
      = ⟨[0, 900], [0, 10]⟩ ∧
    ¬ (generate_release_timeseries
        ⟨0, some 900, some 10, none, 0, [], false, 0, none⟩ 1 10 1800).data
      = [10, 10] := by
  have hgen : generate_release_timeseries
      ⟨0, some 900, some 10, none, 0, [], false, 0, none⟩ 1 10 1800
      = ⟨[0, 900], [0, 10]⟩ := by
    rw [generate_release_timeseries]
    simp [release_duration, end_release_time, linspace, pyInt, List.range_succ]
    norm_num
  refine ⟨?_, hgen, ?_⟩
  · rw [get_num_release_time_steps]
    norm_num [release_duration, end_release_time]
    rw [Int.ceil_eq_iff]
    norm_num
  · rw [hgen]
    decide

/-- C4 amended: the two-samples-both-`max_release` shape holds exactly for
an instantaneous release (`release_duration = 0`, which forces
`num_ts = 1`); for a positive-duration release over `num_ts ≥ 1` steps the
data has `num_ts + 1` samples whose `i`-th value is the integer truncation
of the linear interpolation `max_release * i / num_ts` (so 0 at the start
and `max_release` at the end). -/
theorem claim4_amended_timeseries_shape (s : ReleaseState)
    (num_ts max_release ts : ℤ) :
    (release_duration s = 0 →
      generate_release_timeseries s 1 max_release ts
        = ⟨[s.releaseTime, s.releaseTime + 1], [max_release, max_release]⟩) ∧
    (release_duration s ≠ 0 → 1 ≤ num_ts →
      ((generate_release_timeseries s num_ts max_release ts).data.length
          = num_ts.toNat + 1 ∧
       ∀ i : ℕ, i < num_ts.toNat + 1 →
         (generate_release_timeseries s num_ts max_release ts).data.getD i 0
           = pyInt ((max_release : ℚ) * (i : ℚ) / (num_ts : ℚ)))) :=
  ⟨fun h => c4_instantaneous s max_release ts h,
   fun hd hn => ⟨c4_data_length s num_ts max_release ts hd,
                 fun i hi => c4_data_getD s num_ts max_release ts hd hn i hi⟩⟩

/-- C4 witness: the amended theorem at an instantaneous release and at the
10-element two-step release (sample 1 is ⌊10·1/2⌋ = 5). -/
theorem claim4_witness :
    generate_release_timeseries
        ⟨0, none, some 10, none, 0, [], false, 0, none⟩ 1 10 1800
      = ⟨[0, 1], [10, 10]⟩ ∧
    (generate_release_timeseries
        ⟨0, some 3600, some 10, none, 0, [], false, 0, none⟩ 2 10 1800).data.getD
      1 0 = 5 := by
  constructor
  · have h := (claim4_amended_timeseries_shape
      ⟨0, none, some 10, none, 0, [], false, 0, none⟩ 1 10 1800).1 rfl
    rw [h]
    decide
  · have h := ((claim4_amended_timeseries_shape
      ⟨0, some 3600, some 10, none, 0, [], false, 0, none⟩ 2 10 1800).2
        (by norm_num [release_duration, end_release_time])
        (by norm_num)).2 1 (by norm_num)
    rw [h, pyInt]
    norm_num


/-- C5: for every SpatialRelease over a valid polygon set (positive
geodesic areas; thicknesses positive when present; explicit weights, when
present, all given and summing to 1), `prepare_for_model_run` succeeds and
the triangle weights it produces sum to exactly 1 (hence within the 1e-6
tolerance) under every weighting mode: thickness-derived, explicit
weights, or default area-proportional. -/
theorem claim5_triangle_weights_sum_to_one (s : ReleaseState)
    (fs : List SpatialFeature) (ts : ℤ)
    (hratio : ¬ Release.LE_timestep_ratio s ts < 1)
    (hne : fs ≠ [])
    (harea : ∀ f ∈ fs, 0 < f.poly.area)
    (hvalid : SpatialRelease.ValidWeighting fs) :
    (SpatialRelease.prepare_for_model_run s fs ts).isOk = true ∧
    (SpatialRelease.triWeightsOf
        (SpatialRelease.prepare_for_model_run s fs ts)).sum = 1 := by
  obtain ⟨s1, hs1⟩ : ∃ s1, Release.prepare_for_model_run s ts = .ok s1 := by
    have h := (prepare_cases s ts).2 hratio
    cases hE : Release.prepare_for_model_run s ts with
    | ok s1 => exact ⟨s1, rfl⟩
    | error e =>
      rw [hE] at h
      exact Bool.noConfusion h
  have hpolyarea : ∀ p ∈ fs.map (fun f => f.poly), p.area ≠ 0 := by
    intro p hp
    rw [List.mem_map] at hp
    obtain ⟨f, hf, rfl⟩ := hp
    exact ne_of_gt (harea f hf)
  have hfslen : 0 < fs.length := List.length_pos.mpr hne
  obtain ⟨ows, hows, tris, tw, htw, hsum⟩ :
      ∃ ows, SpatialRelease.resolve_weights fs = .ok ows ∧
        ∃ tris tw,
          SpatialRelease.get_polys_as_tris (fs.map (fun f => f.poly)) ows
            = .ok (tris, tw) ∧ tw.sum = 1 := by
    cases hth : SpatialRelease.thicknesses fs with
    | some ths0 =>
      have hall := hvalid.1 ths0 hth
      have hdecomp : ths0 = (ths0.map (fun o => o.getD 0)).map some :=
        SpatialRelease.all_some_decompose ths0
          (fun t ht => (hall t ht).imp (fun q hq => hq.1))
      have hth2 : fs.map (fun f => f.thickness)
          = (ths0.map (fun o => o.getD 0)).map some := by
        rw [SpatialRelease.thicknesses_some_inv fs ths0 hth]
        exact hdecomp
      have hthlen : ths0.length = fs.length := by
        have h0 := congrArg List.length
          (SpatialRelease.thicknesses_some_inv fs ths0 hth)
        simpa using h0.symm
      have hpos : ∀ v ∈ SpatialRelease.volumesOf fs
          (ths0.map (fun o => o.getD 0)), 0 < v := by
        intro v hv
        rw [SpatialRelease.volumesOf, List.mem_map] at hv
        obtain ⟨⟨a, t⟩, hpr, rfl⟩ := hv
        have hmem := List.of_mem_zip hpr
        obtain ⟨f, hf, hfa⟩ := List.mem_map.mp hmem.1
        obtain ⟨o, ho, hot⟩ := List.mem_map.mp hmem.2
        obtain ⟨q, hq, hqpos⟩ := hall o ho
        have hta : 0 < a := hfa ▸ harea f hf
        have htt : 0 < t := by
          rw [← hot, hq]
          exact hqpos
        exact mul_pos hta htt
      have hvlen : (SpatialRelease.volumesOf fs
          (ths0.map (fun o => o.getD 0))).length = fs.length := by
        rw [SpatialRelease.volumesOf, List.length_map, List.length_zip,
            List.length_map, List.length_map, hthlen, Nat.min_self]
      have hvne : SpatialRelease.volumesOf fs
          (ths0.map (fun o => o.getD 0)) ≠ [] := by
        apply List.ne_nil_of_length_pos
        rw [hvlen]
        exact hfslen
      have htot : (SpatialRelease.volumesOf fs
          (ths0.map (fun o => o.getD 0))).sum ≠ 0 :=
        ne_of_gt (List.sum_pos _ hpos hvne)
      have hcds := SpatialRelease.compute_distribution_eval fs
        (ths0.map (fun o => o.getD 0)) hth2 hne htot
      refine ⟨some ((SpatialRelease.volumesOf fs
          (ths0.map (fun o => o.getD 0))).map
            (fun v => v / (SpatialRelease.volumesOf fs
              (ths0.map (fun o => o.getD 0))).sum)), ?_, ?_⟩
      · rw [SpatialRelease.resolve_weights, hth]
        dsimp only
        rw [hcds]
        rfl
      · apply SpatialRelease.get_polys_as_tris_explicit
        · rw [List.length_map, hvlen, List.length_map]
        · exact hpolyarea
        · rw [SpatialRelease.sum_map_div, div_self htot]
    | none =>
      cases hw : SpatialRelease.weights fs with
      | some ws0 =>
        obtain ⟨vs, hvs, hvsum⟩ := hvalid.2 ws0 hw
        have hvslen : vs.length = fs.length := by
          have h0 := congrArg List.length
            (SpatialRelease.weights_some_inv fs ws0 hw)
          rw [hvs] at h0
          simpa using h0.symm
        refine ⟨some vs, ?_, ?_⟩
        · rw [SpatialRelease.resolve_weights, hth, hw]
          dsimp only
          rw [if_neg (by
            rw [hvs, List.any_eq_true]
            rintro ⟨o, ho, hco⟩
            rw [List.mem_map] at ho
            obtain ⟨t, _, rfl⟩ := ho
            simp at hco)]
          rw [hvs, SpatialRelease.getD_some_map]
        · apply SpatialRelease.get_polys_as_tris_explicit
          · rw [hvslen, List.length_map]
          · exact hpolyarea
          · exact hvsum
      | none =>
        refine ⟨none, ?_, ?_⟩
        · rw [SpatialRelease.resolve_weights, hth, hw]
        · apply SpatialRelease.get_polys_as_tris_default
          rw [SpatialRelease.flatten_tris_sum, List.map_map]
          apply ne_of_gt
          apply List.sum_pos
          · intro a ha
            rw [List.mem_map] at ha
            obtain ⟨f, hf, rfl⟩ := ha
            exact harea f hf
          · intro h0
            have := congrArg List.length h0
            simp at this
            exact hne this
  rw [SpatialRelease.prepare_for_model_run, hs1, hows]
  dsimp only
  rw [htw]
  exact ⟨rfl, hsum⟩

/-- C5 witness: the theorem applied to a ratio-5 Release over one polygon
with triangle areas `[1, 1]` in the default area-proportional mode. -/
theorem claim5_witness :
    (SpatialRelease.prepare_for_model_run
        ⟨0, some 3600, some 10, none, 0, [], false, 0, none⟩
        [⟨⟨[1, 1]⟩, none, none⟩] 1800).isOk = true ∧
    (SpatialRelease.triWeightsOf
        (SpatialRelease.prepare_for_model_run
          ⟨0, some 3600, some 10, none, 0, [], false, 0, none⟩
          [⟨⟨[1, 1]⟩, none, none⟩] 1800)).sum = 1 :=
  claim5_triangle_weights_sum_to_one
    ⟨0, some 3600, some 10, none, 0, [], false, 0, none⟩
    [⟨⟨[1, 1]⟩, none, none⟩] 1800
    (not_lt.mpr c6_ratio_ten)
    (List.cons_ne_nil _ _)
    (by
      intro f hf
      rw [List.mem_singleton] at hf
      subst hf
      norm_num [ModelPolygon.area])
    ⟨by
      intro ths h
      simp [SpatialRelease.thicknesses] at h,
     by
      intro ws h
      simp [SpatialRelease.weights] at h⟩

/-- C7: when every feature carries a thickness, the resolved per-polygon
weights are the normalized `area × thickness` volumes — regardless of any
explicit `weight` attributes, which are ignored (thickness priority) —
and the weights are proportional to the volumes (`w_i·v_j = w_j·v_i`),
so two equal-area polygons with thickness ratio 2:1 receive weights in
ratio 2:1. -/
theorem claim7_thickness_weight_distribution (fs : List SpatialFeature)
    (ths : List ℚ)
    (hth : fs.map (fun f => f.thickness) = ths.map some)
    (hne : fs ≠ [])
    (htot : (SpatialRelease.volumesOf fs ths).sum ≠ 0) :
    SpatialRelease.resolve_weights fs
      = .ok (some ((SpatialRelease.volumesOf fs ths).map
          (fun v => v / (SpatialRelease.volumesOf fs ths).sum))) ∧
    (∀ i j : ℕ,
      ((SpatialRelease.volumesOf fs ths).map
          (fun v => v / (SpatialRelease.volumesOf fs ths).sum)).getD i 0
        * (SpatialRelease.volumesOf fs ths).getD j 0
      = ((SpatialRelease.volumesOf fs ths).map
          (fun v => v / (SpatialRelease.volumesOf fs ths).sum)).getD j 0
        * (SpatialRelease.volumesOf fs ths).getD i 0) := by
  constructor
  · have hlen : fs.length = ths.length := by
      have := congrArg List.length hth
      simpa using this
    have hths_ne : ths ≠ [] := by
      intro h
      subst h
      simp at hlen
      exact hne hlen
    have hthick : SpatialRelease.thicknesses fs = some (ths.map some) := by
      rw [SpatialRelease.thicknesses]
      simp only [hth]
      rw [if_neg]
      intro hall
      rw [List.all_eq_true] at hall
      obtain ⟨t, ht⟩ := List.exists_mem_of_ne_nil ths hths_ne
      have := hall (some t) (List.mem_map_of_mem some ht)
      simp at this
    rw [SpatialRelease.resolve_weights, hthick]
    rw [SpatialRelease.compute_distribution_eval fs ths hth hne htot]
    rfl
  · intro i j
    rw [SpatialRelease.getD_map_div, SpatialRelease.getD_map_div]
    ring

/-- C7 witness: two equal-area polygons (triangle areas `[3]` each) with
thicknesses 2 and 1 resolve to weights `[2/3, 1/3]` — ratio 2:1. -/
theorem claim7_witness :
    SpatialRelease.resolve_weights
        [⟨⟨[3]⟩, none, some 2⟩, ⟨⟨[3]⟩, none, some 1⟩]
      = .ok (some [2/3, 1/3]) ∧
    (2 : ℚ)/3 = 2 * ((1 : ℚ)/3) := by
  constructor
  · have h := (claim7_thickness_weight_distribution
        [⟨⟨[3]⟩, none, some 2⟩, ⟨⟨[3]⟩, none, some 1⟩] [2, 1]
        rfl (List.cons_ne_nil _ _)
        (by norm_num [SpatialRelease.volumesOf, ModelPolygon.area])).1
    rw [h]
    norm_num [SpatialRelease.volumesOf, ModelPolygon.area]
  · norm_num

end Gnome
